import Mathlib

/-!
Verification of the `tash` shell (src/tash.c) against its specification.

The development shallowly embeds the C source: the tokenizer
(`tash_split_line`), the builtins (`cd`, `help`, `tash_exit`), the builtin
registry (`builtin_str` / `builtin_func`), the dispatcher (`tash_execute`),
the process launcher (`tash_launch`) and the line reader (`tash_read_line`)
are translated into Lean functions, with OS interaction (chdir, fork, exec,
getchar, malloc) represented by explicit oracles, and output represented as
explicit traces of strings written to the standard streams.
-/

namespace Tash

/-- Delimiter set of the tokenizer, `#define tash_TOK_DELIM " \t\r\n\a"`
(tash.c line 195): space, tab, carriage return, newline, bell. -/
def tash_TOK_DELIM : List Char := [' ', '\t', '\r', '\n', Char.ofNat 7]

/-- Whether a character is one of the `strtok` delimiters. -/
def isDelim (c : Char) : Bool := tash_TOK_DELIM.contains c

/-- If dropping a prefix satisfying `p` exposes a head `a`, then `p a` is false. -/
lemma head_dropWhile_false (p : Char → Bool) :
    ∀ (l : List Char) (a : Char) (t : List Char), l.dropWhile p = a :: t → p a = false := by
  intro l
  induction l with
  | nil => intro a t h; simp [List.dropWhile] at h
  | cons c l ih =>
    intro a t h
    rw [List.dropWhile_cons] at h
    by_cases hc : p c
    · rw [if_pos hc] at h; exact ih a t h
    · rw [if_neg hc] at h
      injection h with h1 h2
      subst h1
      simpa using hc

/-- Embedding of `tash_split_line` (tash.c lines 201-232): the `strtok` loop
with delimiter set `tash_TOK_DELIM`.  Each `strtok` call skips leading
delimiters and returns the maximal run of non-delimiter characters; the loop
collects the tokens in order until `strtok` returns `NULL`.  (The token-array
allocation of the C function is modelled separately, by
`tash_split_line_alloc` below, for the allocation-failure claims.) -/
def tash_split_line (line : List Char) : List (List Char) :=
  match hrest : line.dropWhile isDelim with
  | [] => []
  | a :: t =>
    ((a :: t).takeWhile (fun c => !isDelim c)) ::
      tash_split_line ((a :: t).dropWhile (fun c => !isDelim c))
termination_by line.length
decreasing_by
  have ha : isDelim a = false := head_dropWhile_false isDelim line a t hrest
  have h1 : (a :: t).length ≤ line.length := by
    have h2 := (List.dropWhile_sublist (l := line) isDelim).length_le
    rw [hrest] at h2
    exact h2
  have h3 : ((a :: t).dropWhile (fun c => !isDelim c)).length < (a :: t).length := by
    rw [List.dropWhile_cons]
    have h4 : (!isDelim a) = true := by simp [ha]
    rw [if_pos h4]
    have h5 := (List.dropWhile_sublist (l := t) (fun c => !isDelim c)).length_le
    simp only [List.length_cons]
    omega
  omega

/-- Unfolding lemma for `tash_split_line` when the line is all delimiters. -/
lemma tash_split_line_of_nil (l : List Char) (h : l.dropWhile isDelim = []) :
    tash_split_line l = [] := by
  rw [tash_split_line.eq_def]
  split
  · rfl
  next a t heq =>
    rw [h] at heq
    simp at heq

/-- Unfolding lemma for `tash_split_line` when a non-delimiter character remains. -/
lemma tash_split_line_of_cons (l : List Char) (a : Char) (t : List Char)
    (h : l.dropWhile isDelim = a :: t) :
    tash_split_line l =
      ((a :: t).takeWhile (fun c => !isDelim c)) ::
        tash_split_line ((a :: t).dropWhile (fun c => !isDelim c)) := by
  rw [tash_split_line.eq_def]
  split
  next heq =>
    rw [h] at heq
    simp at heq
  next a' t' heq =>
    rw [h] at heq
    injection heq with h1 h2
    subst h1
    subst h2
    rfl

/-- A line consisting only of delimiter characters contributes no nonempty
chunks to `splitOnP`. -/
lemma filter_splitOnP_of_all_delim :
    ∀ (l : List Char), (∀ x ∈ l, isDelim x = true) →
      ((List.splitOnP isDelim l).filter (fun t => !t.isEmpty)) = [] := by
  intro l
  induction l with
  | nil => intro _h; simp
  | cons c t ih =>
    intro h
    have hc : isDelim c = true := h c (List.mem_cons_self c t)
    rw [List.splitOnP_cons, if_pos hc, List.filter_cons]
    simpa using ih (fun x hx => h x (List.mem_cons_of_mem c hx))

/-- Leading delimiters do not affect the nonempty chunks of `splitOnP`. -/
lemma filter_splitOnP_dropWhile :
    ∀ (l : List Char),
      ((List.splitOnP isDelim l).filter (fun t => !t.isEmpty)) =
        ((List.splitOnP isDelim (l.dropWhile isDelim)).filter (fun t => !t.isEmpty)) := by
  intro l
  induction l with
  | nil => simp
  | cons c t ih =>
    by_cases hc : isDelim c
    · rw [List.dropWhile_cons_of_pos hc, List.splitOnP_cons, if_pos hc, List.filter_cons]
      simpa using ih
    · rw [List.dropWhile_cons_of_neg hc]

/-- Main tokenizer characterisation, proved by strong induction on the length
of the line: the `strtok` loop returns exactly the nonempty chunks obtained by
splitting the line at every delimiter occurrence, i.e. the maximal runs of
non-delimiter characters, in order. -/
lemma tash_split_line_eq_aux :
    ∀ (n : Nat) (l : List Char), l.length ≤ n →
      tash_split_line l = ((List.splitOnP isDelim l).filter (fun t => !t.isEmpty)) := by
  intro n
  induction n with
  | zero =>
    intro l h
    have hl : l = [] := List.eq_nil_of_length_eq_zero (Nat.le_zero.mp h)
    subst hl
    rw [tash_split_line_of_nil [] rfl]
    simp
  | succ n ih =>
    intro l h
    cases hrest : l.dropWhile isDelim with
    | nil =>
      rw [tash_split_line_of_nil l hrest]
      have hall : ∀ x ∈ l, isDelim x := List.dropWhile_eq_nil_iff.mp hrest
      exact (filter_splitOnP_of_all_delim l hall).symm
    | cons a t =>
      have ha : isDelim a = false := head_dropWhile_false isDelim l a t hrest
      have hlen : (a :: t).length ≤ l.length := by
        have h2 := (List.dropWhile_sublist (l := l) isDelim).length_le
        rw [hrest] at h2
        exact h2
      rw [tash_split_line_of_cons l a t hrest, filter_splitOnP_dropWhile l, hrest]
      cases hr : (a :: t).dropWhile (fun c => !isDelim c) with
      | nil =>
        have htok : (a :: t).takeWhile (fun c => !isDelim c) = a :: t := by
          have h6 := List.takeWhile_append_dropWhile (fun c => !isDelim c) (a :: t)
          rw [hr] at h6
          simpa using h6
        have hnone : ∀ x ∈ a :: t, ¬ isDelim x := by
          intro x hx
          have h7 : ∀ x ∈ a :: t, (!isDelim x) = true := List.dropWhile_eq_nil_iff.mp hr
          simpa using h7 x hx
        rw [List.splitOnP_eq_single isDelim (a :: t) hnone, htok,
          tash_split_line_of_nil [] rfl, List.filter_cons]
        simp
      | cons d r =>
        have hd : (!isDelim d) = false :=
          head_dropWhile_false (fun c => !isDelim c) (a :: t) d r hr
        have hd' : isDelim d = true := by simpa using hd
        have hsplit : a :: t = ((a :: t).takeWhile (fun c => !isDelim c)) ++ d :: r := by
          conv_lhs => rw [← List.takeWhile_append_dropWhile (fun c => !isDelim c) (a :: t)]
          rw [hr]
        have htokmem : ∀ x ∈ (a :: t).takeWhile (fun c => !isDelim c), ¬ isDelim x := by
          intro x hx
          have h8 : (!isDelim x) = true :=
            List.mem_takeWhile_imp (p := fun c => !isDelim c) hx
          simpa using h8
        have h5 : List.splitOnP isDelim (a :: t) =
            ((a :: t).takeWhile (fun c => !isDelim c)) :: List.splitOnP isDelim r := by
          conv_lhs => rw [hsplit]
          exact List.splitOnP_first isDelim _ htokmem d hd' r
        have htokne : ((a :: t).takeWhile (fun c => !isDelim c)).isEmpty = false := by
          rw [List.takeWhile_cons_of_pos (by simp [ha])]
          simp
        have hrlen : (d :: r).length ≤ n := by
          have h9 : ((a :: t).dropWhile (fun c => !isDelim c)).length < (a :: t).length := by
            rw [List.dropWhile_cons_of_pos (by simp [ha])]
            have h10 := (List.dropWhile_sublist (l := t) (fun c => !isDelim c)).length_le
            simp only [List.length_cons]
            omega
          rw [hr] at h9
          simp only [List.length_cons] at h9 hlen h ⊢
          omega
        have hih := ih (d :: r) hrlen
        rw [h5, List.filter_cons, htokne]
        simp only [Bool.not_false, if_true]
        rw [hih, List.splitOnP_cons, if_pos hd', List.filter_cons]
        simp

/-- The tokenizer equals "split at every delimiter, keep the nonempty chunks":
its output is exactly the maximal runs of non-delimiter characters, in order. -/
lemma tash_split_line_eq (l : List Char) :
    tash_split_line l = ((List.splitOnP isDelim l).filter (fun t => !t.isEmpty)) :=
  tash_split_line_eq_aux l.length l (Nat.le_refl _)

/-- Joining a token vector with single spaces, the re-joining operation of the
round-trip property in the specification. -/
def joinTokens : List (List Char) → List Char
  | [] => []
  | [t] => t
  | t :: ts => t ++ ' ' :: joinTokens ts

/-- Round-trip: tokenizing the single-space join of a vector of nonempty,
delimiter-free tokens gives back the same vector. -/
lemma split_join_roundtrip :
    ∀ (ts : List (List Char)),
      (∀ t ∈ ts, t ≠ [] ∧ ∀ c ∈ t, isDelim c = false) →
      tash_split_line (joinTokens ts) = ts := by
  intro ts
  induction ts with
  | nil => intro _h; exact tash_split_line_of_nil [] rfl
  | cons t ts ih =>
    intro h
    obtain ⟨hne, hall⟩ := h t (List.mem_cons_self _ _)
    have htisempty : t.isEmpty = false := by
      cases t with
      | nil => exact absurd rfl hne
      | cons a s => rfl
    cases ts with
    | nil =>
      have hjoin : joinTokens [t] = t := rfl
      rw [tash_split_line_eq, hjoin,
        List.splitOnP_eq_single isDelim t (fun x hx => by simp [hall x hx]),
        List.filter_cons, htisempty]
      simp
    | cons t2 ts2 =>
      have hjoin : joinTokens (t :: t2 :: ts2) = t ++ ' ' :: joinTokens (t2 :: ts2) := rfl
      rw [tash_split_line_eq, hjoin,
        List.splitOnP_first isDelim t (fun x hx => by simp [hall x hx]) ' ' (by decide)
          (joinTokens (t2 :: ts2)),
        List.filter_cons, htisempty]
      simp only [Bool.not_false, if_true]
      rw [← tash_split_line_eq, ih (fun u hu => h u (List.mem_cons_of_mem t hu))]

/-- Observable state of the shell process: the current working directory and
the text written so far to the standard output and standard error streams.
The ANSI colour escapes printed by `tash_loop` (tash.c lines 244-251) and at
the top of `tash_execute` (line 120) are terminal presentation, which the
specification excludes from its scope; they are not modelled in the traces. -/
structure ShellState where
  cwd : String
  out : List String
  errOut : List String
deriving Repr, DecidableEq

/-- Oracle for the operating-system calls the shell makes: the outcome of
`chdir` (given the current directory and the requested path, the new working
directory on success or `none` on failure), the message `perror` appends for
the current OS error, whether `fork` succeeds, and whether `execvp` succeeds
on a given argument vector. -/
structure OS where
  chdir : String → String → Option String
  errnoMsg : String
  forkOk : Bool
  execOk : List String → Bool

/-- Embedding of the builtin `cd` (tash.c lines 41-51): if `args[1]` is NULL,
report a usage error to stderr; otherwise call `chdir(args[1])`, reporting
the OS error via `perror` on failure; in all cases return 1. -/
def cd (os : OS) (args : List String) (σ : ShellState) : Int × ShellState :=
  match args[1]? with
  | none =>
    (1, { σ with errOut := σ.errOut ++ ["tash: expected argument to \"cd\"\n"] })
  | some path =>
    match os.chdir σ.cwd path with
    | some d => (1, { σ with cwd := d })
    | none => (1, { σ with errOut := σ.errOut ++ ["tash: " ++ os.errnoMsg ++ "\n"] })

/-- The builtin name table `builtin_str` (tash.c lines 16-20). -/
def builtin_str : List String := ["cd", "help", "exit"]

/-- Embedding of the builtin `help` (tash.c lines 58-71): prints a fixed
banner, the builtin names in registry order, and a closing line; returns 1. -/
def help (_args : List String) (σ : ShellState) : Int × ShellState :=
  (1, { σ with out := σ.out ++
      ["The Amazing SHell:TASH!\n",
       "Type program names and arguments, and hit enter.\n",
       "The following are built in:\n"] ++
      builtin_str.map (fun s => "  " ++ s ++ "\n") ++
      ["Use the man command for information on other programs.\n"] })

/-- Embedding of `tash_exit` (tash.c lines 78-81): it ignores its argument
and returns 0; it has no other effect.  The C call sites pass it either an
argument vector (`char **`) or an `EXIT_SUCCESS` / `EXIT_FAILURE` integer,
hence the polymorphic argument. -/
def tash_exit {α : Type} (_args : α) : Int := 0

/-- Fate of the forked child in `tash_launch` (tash.c lines 94-99): either
`execvp` succeeded and the child's image was replaced by the named program,
or `execvp` failed, in which case the child prints the OS error via `perror`,
calls `tash_exit(EXIT_FAILURE)` — which merely returns 0, its value being
discarded — and then falls through to `return 1`, so the child keeps running
as a copy of the shell with return value 1 from `tash_launch`. -/
inductive ChildRes where
  | execed (prog : String) (argv : List String)
  | returned (v : Int) (err : List String)
deriving Repr, DecidableEq

/-- Embedding of the child branch of `tash_launch` (tash.c lines 94-99). -/
def tash_launch_child (os : OS) (args : List String) : ChildRes :=
  if os.execOk args then
    ChildRes.execed (args.headD "") args
  else
    let errline := "tash: " ++ os.errnoMsg ++ "\n"
    let _r := tash_exit (1 : Int)
    ChildRes.returned 1 [errline]

/-- Embedding of `tash_launch` (tash.c lines 88-111) as seen by the parent:
on fork failure report the OS error via `perror`; otherwise block in the
`waitpid` loop until the child terminates or is signalled, recording what
became of the child; in all cases return 1. -/
def tash_launch (os : OS) (args : List String) (σ : ShellState) :
    Int × ShellState × Option ChildRes :=
  if os.forkOk then
    (1, σ, some (tash_launch_child os args))
  else
    (1, { σ with errOut := σ.errOut ++ ["tash: " ++ os.errnoMsg ++ "\n"] }, none)

/-- Result of `tash_execute`: either the function returns a status to
`tash_loop` (with the resulting shell state and the fate of a forked child,
if any), or the whole interpreter process terminates because the C library
function `exit` was invoked during dispatch. -/
inductive ExecResult where
  | ret (v : Int) (σ : ShellState) (child : Option ChildRes)
  | procExit (status : Int) (σ : ShellState)
deriving Repr, DecidableEq

/-- The builtin function table `builtin_func` (tash.c lines 22-26).  Note the
third entry: the source registers `&exit` — the C library function — and not
`tash_exit`, so calling the `exit` builtin through the table invokes
`exit(args)`, terminating the whole process with the numeric value of the
`args` pointer (`argsAddr` in this model) as its exit status. -/
def builtin_func (os : OS) (argsAddr : Int) :
    List (List String → ShellState → ExecResult) :=
  [fun args σ => (fun r => ExecResult.ret r.1 r.2 none) (cd os args σ),
   fun args σ => (fun r => ExecResult.ret r.1 r.2 none) (help args σ),
   fun _args σ => ExecResult.procExit argsAddr σ]

/-- Embedding of `tash_execute` (tash.c lines 118-135): an empty vector
returns 1 at once; otherwise the first token is compared with `strcmp`
against `builtin_str` in order and the first matching `builtin_func` entry is
called with the full vector; if none matches, `tash_launch` is called.  (The
ANSI colour escape printed at line 120 is terminal presentation, outside the
modelled output.) -/
def tash_execute (os : OS) (argsAddr : Int) (args : List String) (σ : ShellState) :
    ExecResult :=
  match args.head? with
  | none => ExecResult.ret 1 σ none
  | some cmd =>
    match (builtin_str.zip (builtin_func os argsAddr)).find? (fun e => e.1 == cmd) with
    | some e => e.2 args σ
    | none =>
      (fun r => ExecResult.ret r.1 r.2.1 r.2.2) (tash_launch os args σ)

/-- The status value `tash_execute` hands back to `tash_loop`, if it returns
at all: `some v` when the dispatch returns `v`, `none` when the process was
terminated by libc `exit` during dispatch. -/
def ExecResult.code : ExecResult → Option Int
  | ExecResult.ret v _ _ => some v
  | ExecResult.procExit _ _ => none

/-- State of the `tash_read_line` character loop (tash.c lines 156-190): the
current capacity `bufsize`, the write index `position`, the buffer (`none`
models a NULL pointer after a failed allocation; `some b` holds the
characters stored so far), the remaining input stream (`[]` means `getchar`
returns `EOF` from now on), the number of allocation calls made so far, and
the diagnostics written to stderr. -/
structure RLState where
  bufsize : Nat
  position : Nat
  buffer : Option (List Char)
  input : List Char
  nalloc : Nat
  errs : List String
deriving Repr, DecidableEq

/-- Result of running the `tash_read_line` loop with a given amount of fuel:
the function returned a line, or it wrote through a NULL buffer (undefined
behaviour, only possible after a failed allocation), or it is still looping
when the fuel runs out.  No constructor terminates the process: no statement
of the loop can do so, because `tash_exit` — the function the source calls
on EOF and on allocation failure — merely returns 0 (tash.c lines 78-81). -/
inductive ReadResult where
  | line (s : List Char) (st : RLState)
  | crash (st : RLState)
  | running (st : RLState)
deriving Repr, DecidableEq

/-- The shared tail of the loop body (tash.c lines 179-189): `position++`,
then if `position >= bufsize`, grow by `tash_RL_BUFSIZE` (1024) and
`realloc`; if `realloc` fails, print the diagnostic and call
`tash_exit(EXIT_FAILURE)` — which merely returns 0, its value discarded —
leaving the buffer NULL and continuing the loop. -/
def rlAdvance (allocOk : Nat → Bool) (st : RLState) : RLState :=
  let st1 := { st with position := st.position + 1 }
  if st1.bufsize ≤ st1.position then
    let st2 := { st1 with bufsize := st1.bufsize + 1024, nalloc := st1.nalloc + 1 }
    if allocOk st1.nalloc then st2
    else
      let _r := tash_exit (1 : Int)
      { st2 with buffer := none, errs := st2.errs ++ ["tash: allocation error\n"] }
  else st1

/-- The `while (1)` loop of `tash_read_line` (tash.c lines 167-190), run for
`fuel` iterations: read a character with `getchar`; on `EOF` call
`tash_exit(EXIT_SUCCESS)` — which merely returns 0, its value discarded —
and keep looping; on a newline store the terminator and return the buffer (a
NULL buffer is written through: undefined behaviour, `crash`); on any other
character store it; then advance `position` and grow the buffer if needed. -/
def tash_read_line_loop (allocOk : Nat → Bool) : Nat → RLState → ReadResult
  | 0, st => ReadResult.running st
  | Nat.succ fuel, st =>
    match st.input with
    | [] =>
      let _r := tash_exit (0 : Int)
      tash_read_line_loop allocOk fuel (rlAdvance allocOk st)
    | c :: rest =>
      if c = '\n' then
        match st.buffer with
        | none => ReadResult.crash { st with input := rest }
        | some b => ReadResult.line b { st with input := rest }
      else
        match st.buffer with
        | none => ReadResult.crash { st with input := rest }
        | some b =>
          tash_read_line_loop allocOk fuel
            (rlAdvance allocOk { st with input := rest, buffer := some (b ++ [c]) })

/-- Embedding of `tash_read_line` (tash.c lines 155-192; the default branch,
since `tash_USE_STD_GETLINE` is not defined): `malloc` the initial 1024-byte
buffer — on failure print the diagnostic and call `tash_exit(EXIT_FAILURE)`,
which merely returns 0, so the loop is entered with a NULL buffer — then run
the character loop on the input stream. -/
def tash_read_line (allocOk : Nat → Bool) (fuel : Nat) (input : List Char) : ReadResult :=
  if allocOk 0 then
    tash_read_line_loop allocOk fuel
      { bufsize := 1024, position := 0, buffer := some [], input := input,
        nalloc := 1, errs := [] }
  else
    let _r := tash_exit (1 : Int)
    tash_read_line_loop allocOk fuel
      { bufsize := 1024, position := 0, buffer := none, input := input,
        nalloc := 1, errs := ["tash: allocation error\n"] }

/-- Result of `tash_split_line` with its allocations modelled: the token
array as returned, or a write through a NULL token array (undefined
behaviour, only possible after a failed allocation); both carry the
diagnostics written to stderr.  As in the reader, no constructor terminates
the process: `tash_exit` merely returns 0. -/
inductive SplitRes where
  | ok (toks : List (List Char)) (errs : List String)
  | crash (errs : List String)
deriving Repr, DecidableEq

/-- The token-collecting loop of `tash_split_line` (tash.c lines 212-230),
iterating over the successive tokens `strtok` yields: store each token (a
NULL array is written through: `crash`), growing the array by
`tash_TOK_BUFSIZE` (64) slots when `position` reaches `bufsize`; if
`realloc` fails, free the backup, print the diagnostic, call
`tash_exit(EXIT_FAILURE)` — which merely returns 0 — and keep looping with a
NULL array.  After the last token, `tokens[position] = NULL` is stored,
which also writes through a NULL array. -/
def splitLoop (allocOk : Nat → Bool) :
    List (List Char) → Nat → Nat → Nat → Option (List (List Char)) → List String →
      SplitRes
  | [], _nalloc, _bufsize, _position, tokens, errs =>
    match tokens with
    | none => SplitRes.crash errs
    | some acc => SplitRes.ok acc errs
  | tok :: rest, nalloc, bufsize, position, tokens, errs =>
    match tokens with
    | none => SplitRes.crash errs
    | some acc =>
      let acc1 := acc ++ [tok]
      let pos1 := position + 1
      if bufsize ≤ pos1 then
        if allocOk nalloc then
          splitLoop allocOk rest (nalloc + 1) (bufsize + 64) pos1 (some acc1) errs
        else
          let _r := tash_exit (1 : Int)
          splitLoop allocOk rest (nalloc + 1) (bufsize + 64) pos1 none
            (errs ++ ["tash: allocation error\n"])
      else splitLoop allocOk rest nalloc bufsize pos1 (some acc1) errs

/-- Embedding of `tash_split_line` with its allocations (tash.c lines
201-232): `malloc` the 64-slot token array — on failure print the diagnostic
and call `tash_exit(EXIT_FAILURE)`, which merely returns 0, so the `strtok`
loop runs with a NULL array — then collect the tokens of the line. -/
def tash_split_line_alloc (allocOk : Nat → Bool) (line : List Char) : SplitRes :=
  if allocOk 0 then
    splitLoop allocOk (tash_split_line line) 1 64 0 (some []) []
  else
    let _r := tash_exit (1 : Int)
    splitLoop allocOk (tash_split_line line) 1 64 0 none ["tash: allocation error\n"]

/-- Allocation oracle on which every allocation succeeds. -/
def allocAll : Nat → Bool := fun _ => true

/-- Allocation oracle on which every allocation fails. -/
def allocNever : Nat → Bool := fun _ => false

/-- A concrete OS oracle for witnesses: `chdir` succeeds and sets the working
directory to the requested path, and `fork` and `exec` succeed. -/
def osOk : OS :=
  { chdir := fun _ p => some p, errnoMsg := "No such file or directory",
    forkOk := true, execOk := fun _ => true }

/-- A concrete OS oracle for witnesses on which `chdir` and `exec` fail. -/
def osFail : OS :=
  { chdir := fun _ _ => none, errnoMsg := "No such file or directory",
    forkOk := true, execOk := fun _ => false }

/-- A concrete initial shell state for witnesses. -/
def st0 : ShellState := { cwd := "/home", out := [], errOut := [] }

/-- Evaluation of the registry scan in `tash_execute` on a nonempty vector:
the first token is compared against `"cd"`, `"help"` and `"exit"` in registry
order, and on no match the launcher runs. -/
lemma tash_execute_cons (os : OS) (argsAddr : Int) (cmd : String) (rest : List String)
    (σ : ShellState) :
    tash_execute os argsAddr (cmd :: rest) σ =
      if "cd" == cmd then
        (fun r => ExecResult.ret r.1 r.2 none) (cd os (cmd :: rest) σ)
      else if "help" == cmd then
        (fun r => ExecResult.ret r.1 r.2 none) (help (cmd :: rest) σ)
      else if "exit" == cmd then ExecResult.procExit argsAddr σ
      else
        (fun r => ExecResult.ret r.1 r.2.1 r.2.2) (tash_launch os (cmd :: rest) σ) := by
  unfold tash_execute
  simp only [List.head?_cons, builtin_str, builtin_func, List.zip, List.zipWith,
    List.find?]
  by_cases h1 : "cd" == cmd
  · simp [h1]
  · simp only [h1]
    by_cases h2 : "help" == cmd
    · simp [h1, h2]
    · simp only [h2]
      by_cases h3 : "exit" == cmd
      · simp [h1, h2, h3]
      · simp [h1, h2, h3]

/-- The builtin `cd` always returns 1 to the dispatcher. -/
lemma cd_fst (os : OS) (args : List String) (σ : ShellState) : (cd os args σ).1 = 1 := by
  unfold cd
  split
  · rfl
  · split
    · rfl
    · rfl

/-- The launcher always returns 1 to the dispatcher in the parent process. -/
lemma tash_launch_fst (os : OS) (args : List String) (σ : ShellState) :
    (tash_launch os args σ).1 = 1 := by
  unfold tash_launch
  split
  · rfl
  · rfl

/-- Advancing the reader state never touches the remaining input stream. -/
lemma rlAdvance_input (allocOk : Nat → Bool) (st : RLState) :
    (rlAdvance allocOk st).input = st.input := by
  unfold rlAdvance
  dsimp only
  split
  · split
    · rfl
    · rfl
  · rfl

/-- Once the input stream is at end-of-file, the `tash_read_line` loop keeps
running for any amount of fuel: the EOF branch calls `tash_exit`, which
returns 0 to no effect, and the loop repeats. -/
lemma read_loop_eof_running (allocOk : Nat → Bool) :
    ∀ (fuel : Nat) (st : RLState), st.input = [] →
      ∃ st2, tash_read_line_loop allocOk fuel st = ReadResult.running st2 := by
  intro fuel
  induction fuel with
  | zero => intro st _h; exact ⟨st, rfl⟩
  | succ fuel ih =>
    intro st h
    rw [tash_read_line_loop, h]
    exact ih (rlAdvance allocOk st) (by rw [rlAdvance_input, h])

/-- C1: the claim fails on the code.  On end-of-input the Line Reader does
not signal termination of the whole program: with every allocation
succeeding and an input stream at EOF from the first read, `tash_read_line`
is still `running` after any number of loop iterations — the EOF branch
calls `tash_exit(EXIT_SUCCESS)`, which merely returns 0 with no effect — so
the program neither shuts down nor hands an outcome back to the interaction
loop. -/
theorem c1_eof_loops_forever :
    (∀ fuel : Nat, ∃ st2, tash_read_line allocAll fuel [] = ReadResult.running st2) ∧
      tash_exit (0 : Int) = 0 := by
  constructor
  · intro fuel
    have h := read_loop_eof_running allocAll fuel
      { bufsize := 1024, position := 0, buffer := some [], input := [],
        nalloc := 1, errs := [] } rfl
    simpa [tash_read_line, allocAll] using h
  · rfl

/-- C2: the claim fails on the code.  `builtin_func` registers the C library
function `exit`, not `tash_exit`, as the third builtin, so dispatching
`exit` (with any arguments) calls `exit(args)`: the process terminates at
once with the numeric value of the `args` pointer as its exit status, the
interaction loop never receives a `Terminate` return, and the status is the
pointer value rather than `EXIT_SUCCESS`.  `tash_exit`, whose documented
contract ("always returns 0, to terminate execution") matches the claim, is
never reached by dispatch. -/
theorem c2_exit_dispatch_kills_process :
    ∀ (os : OS) (argsAddr : Int) (rest : List String) (σ : ShellState),
      tash_execute os argsAddr ("exit" :: rest) σ = ExecResult.procExit argsAddr σ ∧
        (tash_execute os argsAddr ("exit" :: rest) σ).code = none ∧
        tash_exit ("exit" :: rest) = 0 := by
  intro os addr rest σ
  have h2 : tash_execute os addr ("exit" :: rest) σ = ExecResult.procExit addr σ := by
    rw [tash_execute_cons]
    simp
  exact ⟨h2, by rw [h2]; rfl, rfl⟩

/-- C3: the claim fails on the code.  When a buffer-growth allocation fails,
the diagnostic is printed but the process does not terminate:
`tash_exit(EXIT_FAILURE)` merely returns 0, so execution continues past the
failed allocation and writes through the NULL buffer (undefined behaviour,
`crash`) — in the Line Reader as well as in the Tokenizer. -/
theorem c3_alloc_failure_not_fatal :
    tash_read_line allocNever 2 ("a\n".data) =
        ReadResult.crash
          { bufsize := 1024, position := 0, buffer := none,
            input := "\n".data, nalloc := 1, errs := ["tash: allocation error\n"] } ∧
      tash_split_line_alloc allocNever ("echo hi".data) =
        SplitRes.crash ["tash: allocation error\n"] ∧
      tash_exit (1 : Int) = 0 := by
  refine ⟨by decide, ?_, rfl⟩
  have hs : tash_split_line ("echo hi".data) = ["echo".data, "hi".data] := by
    rw [tash_split_line_eq]
    decide
  unfold tash_split_line_alloc
  rw [hs]
  decide

/-- C4: the claim fails on the code.  The fork-failure path does report the
OS error and return 1, and the launcher always returns 1 in the parent; but
when `execvp` fails the child does not terminate with a failure status: it
prints the OS error, calls `tash_exit(EXIT_FAILURE)` — which merely returns
0, its value discarded — and then falls through to `return 1`, so the child
keeps running as a copy of the shell. -/
theorem c4_child_survives_exec_failure :
    tash_launch osFail ["not_a_real_program_xyz"] st0 =
        (1, st0,
          some (ChildRes.returned 1 ["tash: No such file or directory\n"])) ∧
      (∀ (os : OS) (args : List String) (σ : ShellState),
        (tash_launch os args σ).1 = 1) ∧
      tash_exit (1 : Int) = 0 :=
  ⟨rfl, tash_launch_fst, rfl⟩

/-- C5: confirmed.  The Tokenizer produces exactly the maximal runs of
non-delimiter characters — the nonempty chunks obtained by splitting the
line at every occurrence of a character from {space, tab, CR, LF, BEL} — in
order; tokenizing "echo  a   b\tc\n" yields ["echo","a","b","c"]; and a line
with no non-delimiter characters yields a vector of length zero. -/
theorem c5_tokenizer_maximal_runs :
    (∀ l : List Char,
        tash_split_line l = ((List.splitOnP isDelim l).filter (fun t => !t.isEmpty))) ∧
      tash_split_line ("echo  a   b\tc\n".data) =
        ["echo".data, "a".data, "b".data, "c".data] ∧
      (∀ l : List Char, (∀ c ∈ l, isDelim c = true) → tash_split_line l = []) := by
  refine ⟨tash_split_line_eq, ?_, ?_⟩
  · rw [tash_split_line_eq]
    decide
  · intro l h
    rw [tash_split_line_eq]
    exact filter_splitOnP_of_all_delim l h

/-- Witness for C5: the characterisation at a concrete line, and the
zero-token case at a concrete all-whitespace line. -/
theorem c5_witness :
    tash_split_line ("a b".data) =
        ((List.splitOnP isDelim ("a b".data)).filter (fun t => !t.isEmpty)) ∧
      tash_split_line (" \t\n".data) = [] :=
  ⟨c5_tokenizer_maximal_runs.1 ("a b".data),
   c5_tokenizer_maximal_runs.2.2 (" \t\n".data) (by decide)⟩

/-- C6: confirmed.  `cd` with no path argument reports a usage error on
stderr and leaves the working directory unchanged; when `chdir` fails it
reports the OS error and leaves the working directory unchanged; when
`chdir` succeeds it changes the working directory; in every case it returns
1 (Continue). -/
theorem c6_cd_behaviour :
    ∀ (os : OS) (σ : ShellState),
      (cd os ["cd"] σ =
        (1, { σ with errOut := σ.errOut ++ ["tash: expected argument to \"cd\"\n"] })) ∧
      (∀ (p : String) (rest : List String),
        (os.chdir σ.cwd p = none →
          cd os ("cd" :: p :: rest) σ =
            (1, { σ with errOut := σ.errOut ++ ["tash: " ++ os.errnoMsg ++ "\n"] })) ∧
        (∀ d : String, os.chdir σ.cwd p = some d →
          cd os ("cd" :: p :: rest) σ = (1, { σ with cwd := d }))) := by
  intro os σ
  refine ⟨rfl, ?_⟩
  intro p rest
  constructor
  · intro h
    unfold cd
    simp [h]
  · intro d h
    unfold cd
    simp [h]

/-- Witness for C6: the three cases at concrete OS oracles and a concrete
state. -/
theorem c6_witness :
    (cd osOk ["cd"] st0 =
        (1, { st0 with errOut := st0.errOut ++ ["tash: expected argument to \"cd\"\n"] })) ∧
      cd osFail ["cd", "/nope"] st0 =
        (1, { st0 with errOut := st0.errOut ++ ["tash: " ++ osFail.errnoMsg ++ "\n"] }) ∧
      cd osOk ["cd", "/tmp"] st0 = (1, { st0 with cwd := "/tmp" }) :=
  ⟨(c6_cd_behaviour osOk st0).1,
   ((c6_cd_behaviour osFail st0).2 "/nope" []).1 rfl,
   ((c6_cd_behaviour osOk st0).2 "/tmp" []).2 "/tmp" rfl⟩

/-- C7: confirmed.  Dispatching the empty argument vector returns 1
(Continue) with the shell state unchanged and no child process created: no
builtin runs, nothing is launched, and no output is produced. -/
theorem c7_empty_vector_noop :
    ∀ (os : OS) (argsAddr : Int) (σ : ShellState),
      tash_execute os argsAddr [] σ = ExecResult.ret 1 σ none := by
  intro os addr σ
  rfl

/-- C8: confirmed.  For every vector of nonempty tokens containing no
delimiter characters, tokenizing the single-space join reproduces the
vector. -/
theorem c8_roundtrip :
    ∀ ts : List (List Char),
      (∀ t ∈ ts, t ≠ [] ∧ ∀ c ∈ t, isDelim c = false) →
      tash_split_line (joinTokens ts) = ts :=
  split_join_roundtrip

/-- Witness for C8 at a concrete token vector. -/
theorem c8_witness :
    tash_split_line (joinTokens [['e', 'c', 'h', 'o'], ['a'], ['b', 'c']]) =
      [['e', 'c', 'h', 'o'], ['a'], ['b', 'c']] :=
  c8_roundtrip [['e', 'c', 'h', 'o'], ['a'], ['b', 'c']] (by decide)

/-- C9: confirmed.  Whenever the first token is not the exact string "exit"
— covering the empty-vector branch, the `cd` and `help` builtins, and the
external launcher — dispatch returns 1 (Continue) to the interaction loop;
only the registry entry for "exit" can produce anything else. -/
theorem c9_non_exit_yields_continue :
    ∀ (os : OS) (argsAddr : Int) (args : List String) (σ : ShellState),
      args.head? ≠ some "exit" →
      (tash_execute os argsAddr args σ).code = some 1 := by
  intro os addr args σ h
  cases args with
  | nil => rfl
  | cons cmd rest =>
    have hexit : ¬ ("exit" == cmd) = true := by
      intro he
      have hcmd : "exit" = cmd := by simpa using he
      exact h (by rw [List.head?_cons, ← hcmd])
    rw [tash_execute_cons]
    by_cases h1 : ("cd" == cmd) = true
    · rw [if_pos h1]
      show some (cd os (cmd :: rest) σ).1 = some 1
      rw [cd_fst]
    · rw [if_neg h1]
      by_cases h2 : ("help" == cmd) = true
      · rw [if_pos h2]
        rfl
      · rw [if_neg h2, if_neg hexit]
        show some (tash_launch os (cmd :: rest) σ).1 = some 1
        rw [tash_launch_fst]

/-- Witness for C9 at a concrete unknown command, a builtin, and the empty
vector. -/
theorem c9_witness :
    ((["not_a_real_program_xyz"] : List String).head? ≠ some "exit" ∧
        (tash_execute osOk 77 ["not_a_real_program_xyz"] st0).code = some 1) ∧
      ((["cd", "/tmp"] : List String).head? ≠ some "exit" ∧
        (tash_execute osOk 77 ["cd", "/tmp"] st0).code = some 1) ∧
      (([] : List String).head? ≠ some "exit" ∧
        (tash_execute osOk 77 [] st0).code = some 1) :=
  ⟨⟨by decide, c9_non_exit_yields_continue osOk 77 ["not_a_real_program_xyz"] st0
      (by decide)⟩,
   ⟨by decide, c9_non_exit_yields_continue osOk 77 ["cd", "/tmp"] st0 (by decide)⟩,
   ⟨by decide, c9_non_exit_yields_continue osOk 77 [] st0 (by decide)⟩⟩

/-- C10: confirmed.  `cd` inspects only `args[1]` as the target path: any
arguments after it have no effect on the directory change, the output, or
the outcome. -/
theorem c10_cd_ignores_extra_args :
    ∀ (os : OS) (σ : ShellState) (p : String) (extra extra2 : List String),
      cd os ("cd" :: p :: extra) σ = cd os ("cd" :: p :: extra2) σ := by
  intro os σ p e1 e2
  unfold cd
  simp

end Tash
